import Mathlib

/-!
Formal model of `apr_auto.py`, the APR auto-orchestrator.

The program drives an external round-producing tool in a loop until a
convergence target is reached, with retry, truncation-detection and
recovery policy.  We give a shallow embedding of the decision logic:

* artifact text is modelled as `List Char` (the program reads files as
  Python `str`; we model the ASCII fragment of Python's string methods:
  `rstrip`, `split`, `splitlines` on newline, `isalpha`, `lower`);
* scores are modelled as `ℚ` (the program uses Python floats only for
  comparisons against 1.0 / 100.0 and a single `* 100` scaling, and for
  the `avg * 0.3` relative-size bound, which we state exactly as the
  rational inequality `10 * chars * n < 3 * total`);
* every external effect of one loop iteration (the `apr run` subprocess,
  the round file's content, the CDP recovery result, the backfill +
  stats score read) is an oracle value in a `RoundOutcome` record, and
  the loop body `Orchestrator.run` (lines 1163-1379) becomes a step
  function `stepE` on a `LoopState`, iterated by `runLoop` over a list
  of outcomes.  `stepE` additionally reports which code path ran as an
  `IterEvent`, a pure instrumentation of the branch taken.

Wall-clock fields of the Python dataclasses (`duration_seconds`,
`timestamp`, `started_at`, `finished_at`) and the logging / filesystem /
subprocess plumbing carry no decision logic and are not modelled.
-/

set_option maxRecDepth 8000

namespace AprAuto

/-- Absolute floor on artifact characters (`MIN_OUTPUT_CHARS = 200`). -/
def MIN_OUTPUT_CHARS : ℕ := 200

/-- Absolute floor on artifact newline count (`MIN_OUTPUT_LINES = 5`). -/
def MIN_OUTPUT_LINES : ℕ := 5

/-- Cap on consecutive failed attempts (`MAX_CONSECUTIVE_FAILURES = 3`). -/
def MAX_CONSECUTIVE_FAILURES : ℕ := 3

/-- Cap on truncation retries per round (`MAX_TRUNCATION_RETRIES = 3`). -/
def MAX_TRUNCATION_RETRIES : ℕ := 3

/-- ASCII whitespace, the characters Python's `str.rstrip()` / `str.split()`
strip on for ASCII text: space, tab, newline, carriage return, vertical
tab, form feed. -/
def isSpaceChar (c : Char) : Bool :=
  c == ' ' || c == '\t' || c == '\n' || c == '\r' ||
  c == Char.ofNat 11 || c == Char.ofNat 12

/-- Python `content.rstrip()` on ASCII text: drop trailing whitespace. -/
def rstrip (s : List Char) : List Char :=
  (s.reverse.dropWhile isSpaceChar).reverse

/-- Helper for `splitWs`: accumulate the current (reversed) token. -/
def splitWsAux : List Char → List Char → List (List Char)
  | [], acc => if acc.isEmpty then [] else [acc.reverse]
  | c :: cs, acc =>
      if isSpaceChar c then
        if acc.isEmpty then splitWsAux cs []
        else acc.reverse :: splitWsAux cs []
      else splitWsAux cs (c :: acc)

/-- Python `s.split()` with no argument: whitespace-delimited tokens,
no empty tokens. -/
def splitWs (s : List Char) : List (List Char) :=
  splitWsAux s []

/-- The last line of `s`: the characters after the last newline
(Python `s.splitlines()[-1]` for newline-separated ASCII text). -/
def lastLine (s : List Char) : List Char :=
  (s.reverse.takeWhile (fun c => !(c == '\n'))).reverse

/-- The fence-delimiter character (code point 96). -/
def backtick : Char := Char.ofNat 96

/-- Line 440: `stripped.endswith("··") and not stripped.endswith("···")`
with the two/three fence-delimiter characters. -/
def incomplete_code_fence (stripped : List Char) : Bool :=
  decide (stripped.reverse.take 2 = [backtick, backtick]) &&
  !(decide (stripped.reverse.take 3 = [backtick, backtick, backtick]))

/-- Whether the final character of a token is alphabetic
(Python `last[-1].isalpha()` on ASCII text). -/
def lastCharAlpha (t : List Char) : Bool :=
  match t.getLast? with
  | some c => c.isAlpha
  | none => false

/-- The vowel class of the no-vowel-fragment heuristic, `"aeiouy"`. -/
def vowelChars : List Char := ['a', 'e', 'i', 'o', 'u', 'y']

/-- Line 450: `any(c in last.lower() for c in "aeiouy")` — some character
of the token is a vowel-class character after lowercasing. -/
def hasVowel (t : List Char) : Bool :=
  t.any fun c => vowelChars.contains c.toLower

/-- Lines 447-451: final token longer than 3 characters, alphabetic-ending,
with no vowel-class character. -/
def no_vowel_fragment (t : List Char) : Bool :=
  decide (3 < t.length) && lastCharAlpha t && !(hasVowel t)

/-- Lines 432-465 of `check_output_truncation`: the mid-word / structure
heuristics applied to the stripped content when it has a final token:
incomplete code fence, no-vowel final fragment, or a trailing heading
in a short (< 1000 chars) artifact. -/
def midword_heuristics (content : List Char) : Bool :=
  match (splitWs (rstrip content)).getLast? with
  | none => false
  | some last =>
      incomplete_code_fence (rstrip content) ||
      no_vowel_fragment last ||
      (decide ((lastLine (rstrip content)).head? = some '#') &&
        decide (content.length < 1000))

/-- Lines 467-475: a non-empty rolling size history exists, the content is
non-empty, and the character count is below 30% of the history's mean.
`chars < (total / n) * 0.3` is stated exactly as `10 * chars * n < 3 * total`. -/
def relative_size_truncation (chars : ℕ) (sizes : List ℕ) : Bool :=
  !(sizes.isEmpty) && decide (0 < chars) &&
  decide (10 * chars * sizes.length < 3 * sizes.sum)

/-- `check_output_truncation` (lines 396-478): `none` models a missing or
unreadable round file (lines 410-419, truncated); otherwise the checks run
in source order, each an early-`True` return, so the result is their
disjunction. -/
def check_output_truncation (fileContent : Option (List Char))
    (sizes : List ℕ) : Bool :=
  match fileContent with
  | none => true
  | some content =>
      decide (content.length < MIN_OUTPUT_CHARS) ||
      decide (content.count '\n' < MIN_OUTPUT_LINES) ||
      midword_heuristics content ||
      relative_size_truncation content.length sizes

/-- The terminal stop reasons of the orchestrator state machine. -/
inductive StopReason where
  | preflight_failed
  | shutdown
  | consecutive_failures
  | truncated_output
  | converged
  | max_rounds_reached
  | completed
deriving DecidableEq

/-- The fields of `Config` the loop's decisions read (the remaining
fields are subprocess/filesystem plumbing: hosts, paths, tokens). -/
structure Config where
  max_rounds : ℕ
  convergence_target : ℚ
  cooldown : ℕ
  integrate : Bool
  commit : Bool
  cdp_recovery_enabled : Bool
deriving DecidableEq

/-- `RoundResult` (lines 154-171) minus the wall-clock fields
`duration_seconds` and `timestamp`. -/
structure RoundResult where
  round_num : ℕ
  success : Bool
  error_msg : Option String
  convergence_pct : Option ℚ
  round_chars : ℕ
  round_lines : ℕ
  truncated : Bool
  cdp_recovery_attempted : Bool
  integrated : Bool
  committed : Bool
  commit_sha : Option String
deriving DecidableEq

/-- The external effects of one loop iteration, provided by the
environment: the shutdown flag sampled at the top of the loop, the
`run_apr_round` outcome, the round file's content after the run (`none`
when missing), the recovery text after `attempt_cdp_recovery` plus the
`write_text` of line 1247 (`none` covers recovery disabled, failed, too
short, or an unwritable file), the convergence score after `run_backfill`
plus `read_stability_score` (`none` when backfill fails or stats are
unavailable), and the integrate / commit collaborator results. -/
structure RoundOutcome where
  shutdown : Bool
  execSuccess : Bool
  errorMsg : String
  fileContent : Option (List Char)
  recovered : Option (List Char)
  convScore : Option ℚ
  integrateOk : Bool
  commitSha : Option String

/-- The orchestrator's loop state: `round_num` and
`consecutive_failures` of lines 1164-1165, `self._output_sizes`,
`self._truncation_attempts`, and the `RunSummary` counters. -/
structure LoopState where
  round_num : ℕ
  consecutive_failures : ℕ
  output_sizes : List ℕ
  truncation_attempts : ℕ → ℕ
  rounds_completed : ℕ
  rounds_failed : ℕ
  results : List RoundResult
  stopped_reason : Option StopReason

/-- Which code path one iteration of the loop took. -/
inductive IterEvent where
  | shutdownObserved
  | execFailed
  | truncationFailed
  | acceptedFirstPass (chars : ℕ)
  | acceptedRecovered (chars : ℕ)
deriving DecidableEq

/-- Whether the iteration accepted the round (first-pass complete, or
recovered and complete). -/
def IterEvent.isAccepted : IterEvent → Bool
  | IterEvent.acceptedFirstPass _ => true
  | IterEvent.acceptedRecovered _ => true
  | _ => false

/-- Character count of the round file (lines 1210-1216: `0` when the
file is missing). -/
def charsOf : Option (List Char) → ℕ
  | none => 0
  | some c => c.length

/-- Newline count of the round file (lines 1210-1216). -/
def linesOf : Option (List Char) → ℕ
  | none => 0
  | some c => c.count '\n'

/-- Lines 1187-1206: a `run_apr_round` failure increments the
consecutive-failure counter and the failed count, appends a failed
`RoundResult`, and stops with `consecutive_failures` at the cap;
otherwise the loop backs off and retries the same round number. -/
def execFailStep (s : LoopState) (errMsg : String) : LoopState :=
  let s1 : LoopState :=
    { s with
      consecutive_failures := s.consecutive_failures + 1,
      rounds_failed := s.rounds_failed + 1,
      results := s.results ++
        [{ round_num := s.round_num, success := false,
           error_msg := some errMsg, convergence_pct := none,
           round_chars := 0, round_lines := 0, truncated := false,
           cdp_recovery_attempted := false, integrated := false,
           committed := false, commit_sha := none }] }
  if MAX_CONSECUTIVE_FAILURES ≤ s1.consecutive_failures then
    { s1 with stopped_reason := some StopReason.consecutive_failures }
  else s1

/-- Lines 1278-1312: a truncation that recovery did not repair.
`attempts` is this round's already-updated truncation counter, `chars` /
`lineCount` the metrics of the (possibly recovery-overwritten) file,
`recoveredSome` whether recovery produced text (line 1287).  Under the
retry cap the consecutive-failure cap is checked; at the cap the loop
stops with `truncated_output`. -/
def truncFailStep (cfg : Config) (s : LoopState)
    (attempts chars lineCount : ℕ) (recoveredSome : Bool) : LoopState :=
  let s1 : LoopState :=
    { s with
      consecutive_failures := s.consecutive_failures + 1,
      rounds_failed := s.rounds_failed + 1,
      results := s.results ++
        [{ round_num := s.round_num, success := false,
           error_msg := some "output_truncated", convergence_pct := none,
           round_chars := chars, round_lines := lineCount,
           truncated := true,
           cdp_recovery_attempted := recoveredSome || cfg.cdp_recovery_enabled,
           integrated := false, committed := false, commit_sha := none }] }
  if attempts < MAX_TRUNCATION_RETRIES then
    if MAX_CONSECUTIVE_FAILURES ≤ s1.consecutive_failures then
      { s1 with stopped_reason := some StopReason.consecutive_failures }
    else s1
  else { s1 with stopped_reason := some StopReason.truncated_output }

/-- Line 1358: `conv_pct is not None and conv_pct >= config.convergence_target`.
An unknown score is never compared against the target. -/
def convergedFlag (cfg : Config) (conv : Option ℚ) : Bool :=
  match conv with
  | some p => decide (cfg.convergence_target ≤ p)
  | none => false

/-- Lines 1314-1373: the accepted-round tail of the loop body: reset the
consecutive-failure counter, count the round completed, record the
result (with the convergence score when known), stop with `converged`
when the score is known and at least the target, otherwise advance the
round number. -/
def acceptStep (cfg : Config) (o : RoundOutcome) (s : LoopState)
    (chars lineCount : ℕ) : LoopState :=
  let s1 : LoopState :=
    { s with
      consecutive_failures := 0,
      rounds_completed := s.rounds_completed + 1 }
  let s2 : LoopState :=
    { s1 with
      results := s1.results ++
        [{ round_num := s1.round_num, success := true, error_msg := none,
           convergence_pct := o.convScore, round_chars := chars,
           round_lines := lineCount, truncated := false,
           cdp_recovery_attempted := false,
           integrated := cfg.integrate && o.integrateOk,
           committed := cfg.commit && o.commitSha.isSome,
           commit_sha := if cfg.commit then o.commitSha else none }] }
  if convergedFlag cfg o.convScore then
    { s2 with stopped_reason := some StopReason.converged }
  else { s2 with round_num := s2.round_num + 1 }

/-- Lines 1242-1312: the truncated branch after this round's truncation
counter was incremented (`s2` carries the update).  A recovery result is
re-checked against the (unchanged) size history; acceptance resets the
consecutive-failure counter and appends the recovered size (lines
1268-1270) before the accepted tail, otherwise the truncation-failure
policy runs with the recovered metrics. -/
def stepTruncated (cfg : Config) (o : RoundOutcome) (s2 : LoopState)
    (attempts chars lineCount : ℕ) : LoopState × IterEvent :=
  match o.recovered with
  | some rtext =>
      if check_output_truncation (some rtext) s2.output_sizes then
        (truncFailStep cfg s2 attempts rtext.length (rtext.count '\n') true,
         IterEvent.truncationFailed)
      else
        (acceptStep cfg o
          { s2 with
            consecutive_failures := 0,
            output_sizes := s2.output_sizes ++ [rtext.length] }
          rtext.length (rtext.count '\n'),
         IterEvent.acceptedRecovered rtext.length)
  | none => (truncFailStep cfg s2 attempts chars lineCount false,
             IterEvent.truncationFailed)

/-- Lines 1208-1312: verify the round file after a successful `apr run`.
On a complete artifact the size is appended to the rolling history
(lines 1221-1222) and the accepted tail runs; on truncation this round's
truncation counter is incremented (lines 1225-1226) and the truncated
branch runs. -/
def stepVerify (cfg : Config) (o : RoundOutcome) (s : LoopState) :
    LoopState × IterEvent :=
  if check_output_truncation o.fileContent s.output_sizes then
    stepTruncated cfg o
      { s with
        truncation_attempts :=
          Function.update s.truncation_attempts s.round_num
            (s.truncation_attempts s.round_num + 1) }
      (s.truncation_attempts s.round_num + 1)
      (charsOf o.fileContent) (linesOf o.fileContent)
  else
    (acceptStep cfg o
      (if 0 < charsOf o.fileContent then
        { s with output_sizes := s.output_sizes ++ [charsOf o.fileContent] }
      else s)
      (charsOf o.fileContent) (linesOf o.fileContent),
     IterEvent.acceptedFirstPass (charsOf o.fileContent))

/-- One iteration of the `while` loop of `Orchestrator.run` (lines
1167-1379), paired with the code path taken.  The shutdown flag is
sampled at the top (lines 1168-1170); a failed `apr run` takes the
failure policy; otherwise the artifact is verified. -/
def stepE (cfg : Config) (o : RoundOutcome) (s : LoopState) :
    LoopState × IterEvent :=
  if o.shutdown then
    ({ s with stopped_reason := some StopReason.shutdown },
     IterEvent.shutdownObserved)
  else if o.execSuccess then
    stepVerify cfg o s
  else
    (execFailStep s o.errorMsg, IterEvent.execFailed)

/-- The loop `while round_num < end` driven by a list of external
outcomes (one per iteration); a set stop reason models `break`. -/
def runLoop (cfg : Config) (endR : ℕ) :
    List RoundOutcome → LoopState → LoopState
  | [], s => s
  | o :: rest, s =>
      if s.stopped_reason.isSome = true ∨ endR ≤ s.round_num then s
      else runLoop cfg endR rest (stepE cfg o s).1

/-- Whether every iteration the loop actually executes on `outcomes`
takes a code path `allow` accepts. -/
def allowedRun (cfg : Config) (endR : ℕ) (allow : IterEvent → Bool) :
    List RoundOutcome → LoopState → Bool
  | [], _ => true
  | o :: rest, s =>
      if s.stopped_reason.isSome = true ∨ endR ≤ s.round_num then true
      else allow (stepE cfg o s).2 &&
           allowedRun cfg endR allow rest (stepE cfg o s).1

/-- `Orchestrator._seed_output_sizes` (lines 1408-1424): on resume, seed
the rolling history from the sizes of the existing round files numbered
`max 1 (up_to - 4)` through `up_to`, skipping absent and empty files.
`fileSizes n` is the size of `round_n.md`, `none` when absent. -/
def _seed_output_sizes (fileSizes : ℕ → Option ℕ) (up_to : ℕ) : List ℕ :=
  (List.range' (max 1 (up_to - 4)) (up_to + 1 - max 1 (up_to - 4))).filterMap
    fun n =>
      match fileSizes n with
      | some size => if 0 < size then some size else none
      | none => none

/-- Event filter for runs whose failures are all truncation failures
(no `run_apr_round` failure, no successful recovery). -/
def truncOnlyEvents : IterEvent → Bool
  | IterEvent.acceptedFirstPass _ => true
  | IterEvent.truncationFailed => true
  | IterEvent.shutdownObserved => true
  | _ => false

/-- Event filter for runs with no truncation failures. -/
def noTruncEvents : IterEvent → Bool
  | IterEvent.truncationFailed => false
  | _ => true

/-- A complete sample artifact: 195 letters then 6 newlines (201
characters, 6 newlines, vowel-bearing final token). -/
def sampleGood : List Char :=
  List.replicate 195 'a' ++ List.replicate 6 '\n'

/-- A truncated sample artifact: 50 characters, below the floor. -/
def badContent : List Char := List.replicate 50 'a'

/-- A sample artifact whose final token is long, alphabetic-ending and
vowel-free: 196 letters `b` then 5 newlines. -/
def noVowelContent : List Char :=
  List.replicate 196 'b' ++ List.replicate 5 '\n'

/-- A whitespace-only sample artifact: 200 newlines. -/
def allWhitespace : List Char := List.replicate 200 '\n'

/-- A sample configuration: target 75%, cap 50 rounds. -/
def cfg0 : Config := ⟨50, 75, 10, false, false, false⟩

/-- The loop state at a fresh start (round 1, empty history). -/
def s0 : LoopState := ⟨1, 0, [], fun _ => 0, 0, 0, [], none⟩

/-- An iteration outcome with a complete artifact and a known score of 80. -/
def oGood : RoundOutcome := ⟨false, true, "", some sampleGood, none, some 80, false, none⟩

/-- An iteration outcome with a complete artifact and no score. -/
def oNoScore : RoundOutcome := ⟨false, true, "", some sampleGood, none, none, false, none⟩

/-- An iteration outcome with a truncated artifact and no recovery. -/
def oBad : RoundOutcome := ⟨false, true, "", some badContent, none, none, false, none⟩

/-- An iteration outcome whose `apr run` failed. -/
def oFail : RoundOutcome := ⟨false, false, "Exit code 1", none, none, none, false, none⟩

/-- A concrete on-disk state at resume time: `round_1.md` exists and
holds `badContent` (50 characters, classified truncated by the
detector); no other round file exists.  Such a file is left behind when
a process dies between the external tool's write and the archive rename
of line 1237, or after the still-truncated recovery write of line 1247.
Under the ASCII text model its `st_size` is its character count. -/
def seedDisk : ℕ → Option (List Char) :=
  fun n => if n = 1 then some badContent else none

theorem execFailStep_round_num (s : LoopState) (m : String) :
    (execFailStep s m).round_num = s.round_num := by
  simp only [execFailStep]
  split <;> rfl

theorem execFailStep_cf (s : LoopState) (m : String) :
    (execFailStep s m).consecutive_failures = s.consecutive_failures + 1 := by
  simp only [execFailStep]
  split <;> rfl

theorem execFailStep_sizes (s : LoopState) (m : String) :
    (execFailStep s m).output_sizes = s.output_sizes := by
  simp only [execFailStep]
  split <;> rfl

theorem execFailStep_ta (s : LoopState) (m : String) :
    (execFailStep s m).truncation_attempts = s.truncation_attempts := by
  simp only [execFailStep]
  split <;> rfl

theorem execFailStep_reason (s : LoopState) (m : String) :
    (execFailStep s m).stopped_reason =
      if MAX_CONSECUTIVE_FAILURES ≤ s.consecutive_failures + 1 then
        some StopReason.consecutive_failures
      else s.stopped_reason := by
  simp only [execFailStep]
  split <;> rfl

theorem truncFailStep_round_num (cfg : Config) (s : LoopState)
    (a c l : ℕ) (r : Bool) :
    (truncFailStep cfg s a c l r).round_num = s.round_num := by
  simp only [truncFailStep]
  split <;> first | rfl | (split <;> rfl)

theorem truncFailStep_cf (cfg : Config) (s : LoopState)
    (a c l : ℕ) (r : Bool) :
    (truncFailStep cfg s a c l r).consecutive_failures =
      s.consecutive_failures + 1 := by
  simp only [truncFailStep]
  split <;> first | rfl | (split <;> rfl)

theorem truncFailStep_sizes (cfg : Config) (s : LoopState)
    (a c l : ℕ) (r : Bool) :
    (truncFailStep cfg s a c l r).output_sizes = s.output_sizes := by
  simp only [truncFailStep]
  split <;> first | rfl | (split <;> rfl)

theorem truncFailStep_ta (cfg : Config) (s : LoopState)
    (a c l : ℕ) (r : Bool) :
    (truncFailStep cfg s a c l r).truncation_attempts =
      s.truncation_attempts := by
  simp only [truncFailStep]
  split <;> first | rfl | (split <;> rfl)

theorem truncFailStep_reason (cfg : Config) (s : LoopState)
    (a c l : ℕ) (r : Bool) :
    (truncFailStep cfg s a c l r).stopped_reason =
      if a < MAX_TRUNCATION_RETRIES then
        if MAX_CONSECUTIVE_FAILURES ≤ s.consecutive_failures + 1 then
          some StopReason.consecutive_failures
        else s.stopped_reason
      else some StopReason.truncated_output := by
  simp only [truncFailStep]
  split <;> first | rfl | (split <;> rfl)

theorem acceptStep_cf (cfg : Config) (o : RoundOutcome) (s : LoopState)
    (c l : ℕ) : (acceptStep cfg o s c l).consecutive_failures = 0 := by
  simp only [acceptStep]
  split <;> rfl

theorem acceptStep_sizes (cfg : Config) (o : RoundOutcome) (s : LoopState)
    (c l : ℕ) : (acceptStep cfg o s c l).output_sizes = s.output_sizes := by
  simp only [acceptStep]
  split <;> rfl

theorem acceptStep_ta (cfg : Config) (o : RoundOutcome) (s : LoopState)
    (c l : ℕ) :
    (acceptStep cfg o s c l).truncation_attempts = s.truncation_attempts := by
  simp only [acceptStep]
  split <;> rfl

theorem acceptStep_reason (cfg : Config) (o : RoundOutcome) (s : LoopState)
    (c l : ℕ) :
    (acceptStep cfg o s c l).stopped_reason =
      if convergedFlag cfg o.convScore then some StopReason.converged
      else s.stopped_reason := by
  simp only [acceptStep]
  split <;> simp_all

theorem acceptStep_round_num (cfg : Config) (o : RoundOutcome)
    (s : LoopState) (c l : ℕ) :
    (acceptStep cfg o s c l).round_num =
      if convergedFlag cfg o.convScore then s.round_num
      else s.round_num + 1 := by
  simp only [acceptStep]
  split <;> simp_all

/-- A complete artifact meets the character floor: the detector's first
rule would otherwise have fired. -/
theorem check_false_min_chars (content : List Char) (sizes : List ℕ)
    (h : check_output_truncation (some content) sizes = false) :
    MIN_OUTPUT_CHARS ≤ content.length := by
  simp only [check_output_truncation, Bool.or_eq_false_iff,
    decide_eq_false_iff_not, not_lt] at h
  exact h.1.1.1

/-- The five code paths one loop iteration can take, with the state and
event each produces. -/
theorem stepE_cases (cfg : Config) (o : RoundOutcome) (s : LoopState) :
    (o.shutdown = true ∧
      stepE cfg o s = ({ s with stopped_reason := some StopReason.shutdown },
        IterEvent.shutdownObserved)) ∨
    (o.shutdown = false ∧ o.execSuccess = false ∧
      stepE cfg o s = (execFailStep s o.errorMsg, IterEvent.execFailed)) ∨
    (o.shutdown = false ∧ o.execSuccess = true ∧
      ∃ content, o.fileContent = some content ∧
        check_output_truncation (some content) s.output_sizes = false ∧
        MIN_OUTPUT_CHARS ≤ content.length ∧
        stepE cfg o s = (acceptStep cfg o
          { s with output_sizes := s.output_sizes ++ [content.length] }
          content.length (content.count '\n'),
          IterEvent.acceptedFirstPass content.length)) ∨
    (o.shutdown = false ∧ o.execSuccess = true ∧
      check_output_truncation o.fileContent s.output_sizes = true ∧
      ∃ chars lineCount recSome,
        stepE cfg o s = (truncFailStep cfg
          { s with
            truncation_attempts :=
              Function.update s.truncation_attempts s.round_num
                (s.truncation_attempts s.round_num + 1) }
          (s.truncation_attempts s.round_num + 1) chars lineCount recSome,
          IterEvent.truncationFailed)) ∨
    (o.shutdown = false ∧ o.execSuccess = true ∧
      check_output_truncation o.fileContent s.output_sizes = true ∧
      ∃ rtext, o.recovered = some rtext ∧
        check_output_truncation (some rtext) s.output_sizes = false ∧
        stepE cfg o s = (acceptStep cfg o
          { s with
            consecutive_failures := 0,
            output_sizes := s.output_sizes ++ [rtext.length],
            truncation_attempts :=
              Function.update s.truncation_attempts s.round_num
                (s.truncation_attempts s.round_num + 1) }
          rtext.length (rtext.count '\n'),
          IterEvent.acceptedRecovered rtext.length)) := by
  cases hsd : o.shutdown with
  | true => exact Or.inl ⟨rfl, by simp [stepE, hsd]⟩
  | false =>
  cases hex : o.execSuccess with
  | false =>
      exact Or.inr (Or.inl ⟨rfl, rfl, by simp [stepE, hsd, hex]⟩)
  | true =>
  by_cases hchk : check_output_truncation o.fileContent s.output_sizes = true
  · cases hrec : o.recovered with
    | none =>
        refine Or.inr (Or.inr (Or.inr (Or.inl ⟨rfl, rfl, hchk,
          charsOf o.fileContent, linesOf o.fileContent, false, ?_⟩)))
        simp [stepE, hsd, hex, stepVerify, hchk, stepTruncated, hrec]
    | some rtext =>
        by_cases hchk2 : check_output_truncation (some rtext) s.output_sizes = true
        · refine Or.inr (Or.inr (Or.inr (Or.inl ⟨rfl, rfl, hchk,
            rtext.length, rtext.count '\n', true, ?_⟩)))
          simp [stepE, hsd, hex, stepVerify, hchk, stepTruncated, hrec, hchk2]
        · refine Or.inr (Or.inr (Or.inr (Or.inr ⟨rfl, rfl, hchk, rtext, rfl,
            by simpa using hchk2, ?_⟩)))
          simp [stepE, hsd, hex, stepVerify, hchk, stepTruncated, hrec, hchk2]
  · cases hfc : o.fileContent with
    | none =>
        exfalso
        rw [hfc] at hchk
        exact hchk rfl
    | some content =>
        have hchk' : check_output_truncation (some content)
            s.output_sizes = false := by
          rw [hfc] at hchk
          simpa using hchk
        have hmin := check_false_min_chars content s.output_sizes hchk'
        have hpos : 0 < content.length := lt_of_lt_of_le (by decide) hmin
        refine Or.inr (Or.inr (Or.inl ⟨rfl, rfl, content, rfl, hchk',
          hmin, ?_⟩))
        simp [stepE, hsd, hex, stepVerify, hfc, hchk', charsOf, linesOf, hpos]

/-- The loop does nothing from a stopped state: a set stop reason is
terminal. -/
theorem runLoop_stopped (cfg : Config) (endR : ℕ)
    (l : List RoundOutcome) (s : LoopState)
    (h : s.stopped_reason.isSome = true) :
    runLoop cfg endR l s = s := by
  cases l <;> simp [runLoop, h]

/-- Invariant-propagation scheme for the loop: if every allowed step
preserves `P` while active and establishes `Q` when it stops, then a run
from an active `P`-state ends in a `P`-state when still active and in a
`Q`-state when stopped. -/
theorem runLoop_policy (cfg : Config) (endR : ℕ) (allow : IterEvent → Bool)
    (P Q : LoopState → Prop)
    (hstep : ∀ o s, s.stopped_reason = none → s.round_num < endR →
      allow (stepE cfg o s).2 = true → P s →
      ((stepE cfg o s).1.stopped_reason = none → P (stepE cfg o s).1) ∧
      ((stepE cfg o s).1.stopped_reason ≠ none → Q (stepE cfg o s).1)) :
    ∀ (outcomes : List RoundOutcome) (s : LoopState),
      s.stopped_reason = none → P s →
      allowedRun cfg endR allow outcomes s = true →
      ((runLoop cfg endR outcomes s).stopped_reason = none →
        P (runLoop cfg endR outcomes s)) ∧
      ((runLoop cfg endR outcomes s).stopped_reason ≠ none →
        Q (runLoop cfg endR outcomes s)) := by
  intro outcomes
  induction outcomes with
  | nil =>
      intro s hs hP _
      simp only [runLoop]
      exact ⟨fun _ => hP, fun hne => absurd hs hne⟩
  | cons o rest ih =>
      intro s hs hP hallow
      by_cases hend : endR ≤ s.round_num
      · have hhalt : runLoop cfg endR (o :: rest) s = s := by
          simp [runLoop, hend]
        rw [hhalt]
        exact ⟨fun _ => hP, fun hne => absurd hs hne⟩
      · have hrun : runLoop cfg endR (o :: rest) s =
            runLoop cfg endR rest (stepE cfg o s).1 := by
          simp [runLoop, hs, hend]
        have hal : allow (stepE cfg o s).2 = true ∧
            allowedRun cfg endR allow rest (stepE cfg o s).1 = true := by
          have := hallow
          simp only [allowedRun] at this
          rw [if_neg (by simp [hs, hend])] at this
          exact Bool.and_eq_true_iff.mp this
        have hstep' := hstep o s hs (lt_of_not_ge hend) hal.1 hP
        rw [hrun]
        cases hsr : (stepE cfg o s).1.stopped_reason with
        | none => exact ih (stepE cfg o s).1 hsr (hstep'.1 hsr) hal.2
        | some r =>
            have hstop : runLoop cfg endR rest (stepE cfg o s).1 =
                (stepE cfg o s).1 :=
              runLoop_stopped _ _ _ _ (by simp [hsr])
            rw [hstop]
            refine ⟨fun hnone => ?_, fun _ => hstep'.2 (by simp [hsr])⟩
            rw [hsr] at hnone
            cases hnone

/-- Claim C6: every artifact text shorter than 200 characters, or with
fewer than 5 newline characters, is classified truncated, regardless of
its other content and of the size history. -/
theorem detector_floor_rules (content : List Char) (sizes : List ℕ)
    (h : content.length < MIN_OUTPUT_CHARS ∨
      content.count '\n' < MIN_OUTPUT_LINES) :
    check_output_truncation (some content) sizes = true := by
  rcases h with h | h <;> simp [check_output_truncation, h]

/-- Witness for C6 at a 50-character artifact. -/
theorem detector_floor_rules_instance :
    check_output_truncation (some badContent) [] = true :=
  detector_floor_rules badContent [] (Or.inl (by decide))

/-- Claim C7: a text passing the size and line floors whose final
whitespace-delimited token has length at least 4, ends in an alphabetic
character and contains no vowel-class character is classified truncated;
and a token containing a vowel never triggers the no-vowel-fragment rule. -/
theorem detector_no_vowel_rule :
    (∀ (content : List Char) (sizes : List ℕ) (t : List Char),
       MIN_OUTPUT_CHARS ≤ content.length →
       MIN_OUTPUT_LINES ≤ content.count '\n' →
       (splitWs (rstrip content)).getLast? = some t →
       3 < t.length → lastCharAlpha t = true → hasVowel t = false →
       check_output_truncation (some content) sizes = true)
  ∧ (∀ t : List Char, hasVowel t = true → no_vowel_fragment t = false) := by
  constructor
  · intro content sizes t _ _ hgl hlen halpha hvow
    have hf : no_vowel_fragment t = true := by
      simp [no_vowel_fragment, hlen, halpha, hvow]
    have hm : midword_heuristics content = true := by
      unfold midword_heuristics
      rw [hgl]
      simp [hf]
    simp [check_output_truncation, hm]
  · intro t hv
    simp [no_vowel_fragment, hv]

/-- Witness for C7 at a 201-character artifact ending in a 196-letter
vowel-free token, and at the vowel-bearing token `abcd`. -/
theorem detector_no_vowel_rule_instance :
    check_output_truncation (some noVowelContent) [] = true ∧
    no_vowel_fragment ['a', 'b', 'c', 'd'] = false :=
  ⟨detector_no_vowel_rule.1 noVowelContent [] (List.replicate 196 'b')
      (by decide) (by decide) (by decide) (by decide) (by decide) (by decide),
   detector_no_vowel_rule.2 ['a', 'b', 'c', 'd'] (by decide)⟩

/-- Claim C8: a text passing every earlier detector rule whose character
count is strictly below 30% of the mean of a non-empty size history is
classified truncated; and on an empty history the relative-size rule
never fires. -/
theorem detector_relative_size_rule :
    (∀ (content : List Char) (sizes : List ℕ),
       check_output_truncation (some content) [] = false →
       sizes ≠ [] →
       10 * content.length * sizes.length < 3 * sizes.sum →
       check_output_truncation (some content) sizes = true)
  ∧ (∀ chars : ℕ, relative_size_truncation chars [] = false) := by
  constructor
  · intro content sizes h hne hlt
    simp only [check_output_truncation, relative_size_truncation,
      Bool.or_eq_false_iff, decide_eq_false_iff_not, not_lt] at h
    obtain ⟨⟨⟨hc, hn⟩, hmid⟩, -⟩ := h
    have hpos : 0 < content.length := lt_of_lt_of_le (by decide) hc
    have hempty : sizes.isEmpty = false := by
      cases sizes with
      | nil => exact absurd rfl hne
      | cons a l => rfl
    simp [check_output_truncation, relative_size_truncation, hempty,
      hpos, hlt, hmid]
  · intro chars
    simp [relative_size_truncation]

/-- Witness for C8 at the complete 201-character artifact against a
history with mean 10000. -/
theorem detector_relative_size_rule_instance :
    check_output_truncation (some sampleGood) [10000] = true ∧
    relative_size_truncation 7 [] = false :=
  ⟨detector_relative_size_rule.1 sampleGood [10000] (by decide)
      (by decide) (by decide),
   detector_relative_size_rule.2 7⟩

/-- Claim C10: a whitespace-only artifact with at least 200 characters
and at least 5 newlines is classified complete when the size history is
empty: the stripped text has no final token, so the mid-word heuristics
are skipped, and the relative-size rule does not fire on an empty
history. -/
theorem whitespace_only_classified_complete (content : List Char)
    (hws : ∀ c ∈ content, isSpaceChar c = true)
    (hlen : MIN_OUTPUT_CHARS ≤ content.length)
    (hnl : MIN_OUTPUT_LINES ≤ content.count '\n') :
    check_output_truncation (some content) [] = false := by
  have hstrip : rstrip content = [] := by
    have hd : content.reverse.dropWhile isSpaceChar = [] := by
      rw [List.dropWhile_eq_nil_iff]
      intro x hx
      exact hws x (List.mem_reverse.mp hx)
    simp [rstrip, hd]
  have hm : midword_heuristics content = false := by
    unfold midword_heuristics
    rw [hstrip]
    rfl
  simp [check_output_truncation, relative_size_truncation, hm,
    Nat.not_lt.mpr hlen, Nat.not_lt.mpr hnl]

/-- Witness for C10 at 200 newline characters. -/
theorem whitespace_only_classified_complete_instance :
    check_output_truncation (some allWhitespace) [] = false :=
  whitespace_only_classified_complete allWhitespace (by decide) (by decide)
    (by decide)

/-- Claim C9: after a round-execution failure or a truncation failure
the round number is unchanged: a retryable failure never advances the
round number. -/
theorem no_round_advance_on_failure (cfg : Config) (o : RoundOutcome)
    (s : LoopState)
    (h : (stepE cfg o s).2 = IterEvent.execFailed ∨
      (stepE cfg o s).2 = IterEvent.truncationFailed) :
    (stepE cfg o s).1.round_num = s.round_num := by
  rcases stepE_cases cfg o s with ⟨-, heq⟩ | ⟨-, -, heq⟩ |
    ⟨-, -, ct, -, -, -, heq⟩ | ⟨-, -, -, c, l, r, heq⟩ |
    ⟨-, -, -, rt, -, -, heq⟩
  · rw [heq] at h; simp at h
  · rw [heq]; exact execFailStep_round_num s o.errorMsg
  · rw [heq] at h; simp at h
  · rw [heq]; simp [truncFailStep_round_num]
  · rw [heq] at h; simp at h

/-- Witness for C9 at a failed `apr run` on round 1. -/
theorem no_round_advance_on_failure_instance :
    (stepE cfg0 oFail s0).1.round_num = s0.round_num :=
  no_round_advance_on_failure cfg0 oFail s0 (Or.inl (by decide))

/-- Claim C1: when an accepted round's convergence score is known and at
least the target, the loop stops with `converged` on that same round and
executes no further round; and when the score is unknown, the iteration
never produces a `converged` stop. -/
theorem converged_stop_policy :
    (∀ (cfg : Config) (endR : ℕ) (o : RoundOutcome) (s : LoopState)
       (rest : List RoundOutcome) (p : ℚ),
       s.stopped_reason = none →
       (stepE cfg o s).2.isAccepted = true →
       o.convScore = some p → cfg.convergence_target ≤ p →
       (stepE cfg o s).1.stopped_reason = some StopReason.converged ∧
       (stepE cfg o s).1.round_num = s.round_num ∧
       runLoop cfg endR rest (stepE cfg o s).1 = (stepE cfg o s).1)
  ∧ (∀ (cfg : Config) (o : RoundOutcome) (s : LoopState),
       s.stopped_reason = none → o.convScore = none →
       (stepE cfg o s).1.stopped_reason ≠ some StopReason.converged) := by
  constructor
  · intro cfg endR o s rest p hs hacc hconv htgt
    have hflag : convergedFlag cfg o.convScore = true := by
      rw [hconv]; simp [convergedFlag, htgt]
    rcases stepE_cases cfg o s with ⟨-, heq⟩ | ⟨-, -, heq⟩ |
      ⟨-, -, ct, -, -, -, heq⟩ | ⟨-, -, -, c, l, r, heq⟩ |
      ⟨-, -, -, rt, -, -, heq⟩
    · rw [heq] at hacc; simp [IterEvent.isAccepted] at hacc
    · rw [heq] at hacc; simp [IterEvent.isAccepted] at hacc
    · rw [heq]
      refine ⟨?_, ?_, ?_⟩
      · simp [acceptStep_reason, hflag]
      · simp [acceptStep_round_num, hflag]
      · apply runLoop_stopped
        simp [acceptStep_reason, hflag]
    · rw [heq] at hacc; simp [IterEvent.isAccepted] at hacc
    · rw [heq]
      refine ⟨?_, ?_, ?_⟩
      · simp [acceptStep_reason, hflag]
      · simp [acceptStep_round_num, hflag]
      · apply runLoop_stopped
        simp [acceptStep_reason, hflag]
  · intro cfg o s hs hconv
    have hflag : convergedFlag cfg o.convScore = false := by
      rw [hconv]; rfl
    rcases stepE_cases cfg o s with ⟨-, heq⟩ | ⟨-, -, heq⟩ |
      ⟨-, -, ct, -, -, -, heq⟩ | ⟨-, -, -, c, l, r, heq⟩ |
      ⟨-, -, -, rt, -, -, heq⟩
    · rw [heq]; simp
    · rw [heq]
      rw [execFailStep_reason]
      split
      · simp
      · simp [hs]
    · rw [heq]
      rw [acceptStep_reason, hflag]
      simp [hs]
    · rw [heq]
      rw [truncFailStep_reason]
      split_ifs <;> simp [hs]
    · rw [heq]
      rw [acceptStep_reason, hflag]
      simp [hs]

/-- Witness for C1 at an accepted round 1 with score 80 against target
75, and at an accepted round with unknown score. -/
theorem converged_stop_policy_instance :
    ((stepE cfg0 oGood s0).1.stopped_reason = some StopReason.converged ∧
     (stepE cfg0 oGood s0).1.round_num = s0.round_num ∧
     runLoop cfg0 51 [] (stepE cfg0 oGood s0).1 = (stepE cfg0 oGood s0).1) ∧
    (stepE cfg0 oNoScore s0).1.stopped_reason ≠ some StopReason.converged :=
  ⟨converged_stop_policy.1 cfg0 51 oGood s0 [] 80 rfl (by decide) rfl
      (by norm_num [cfg0]),
   converged_stop_policy.2 cfg0 oNoScore s0 rfl rfl⟩

/-- Claim C3: a round-execution failure increments the
consecutive-failure counter and stops with `consecutive_failures`
exactly when the counter reaches the cap of 3 (never at 2); any accepted
round resets the counter to 0; and along a run without truncation
failures starting from a zero counter, a `consecutive_failures` stop
occurs exactly at counter 3 while an active loop keeps the counter
strictly below 3. -/
theorem consecutive_failure_cap_policy :
    (∀ (cfg : Config) (o : RoundOutcome) (s : LoopState),
       s.stopped_reason = none →
       (stepE cfg o s).2 = IterEvent.execFailed →
       (stepE cfg o s).1.consecutive_failures = s.consecutive_failures + 1 ∧
       ((stepE cfg o s).1.stopped_reason =
           some StopReason.consecutive_failures ↔
         MAX_CONSECUTIVE_FAILURES ≤ s.consecutive_failures + 1))
  ∧ (∀ (cfg : Config) (o : RoundOutcome) (s : LoopState),
       (stepE cfg o s).2.isAccepted = true →
       (stepE cfg o s).1.consecutive_failures = 0)
  ∧ (∀ (cfg : Config) (endR : ℕ) (outcomes : List RoundOutcome)
       (s : LoopState),
       s.stopped_reason = none →
       s.consecutive_failures = 0 →
       allowedRun cfg endR noTruncEvents outcomes s = true →
       ((runLoop cfg endR outcomes s).stopped_reason =
           some StopReason.consecutive_failures →
         (runLoop cfg endR outcomes s).consecutive_failures =
           MAX_CONSECUTIVE_FAILURES) ∧
       ((runLoop cfg endR outcomes s).stopped_reason = none →
         (runLoop cfg endR outcomes s).consecutive_failures <
           MAX_CONSECUTIVE_FAILURES)) := by
  refine ⟨?_, ?_, ?_⟩
  · intro cfg o s hs hev
    rcases stepE_cases cfg o s with ⟨-, heq⟩ | ⟨-, -, heq⟩ |
      ⟨-, -, ct, -, -, -, heq⟩ | ⟨-, -, -, c, l, r, heq⟩ |
      ⟨-, -, -, rt, -, -, heq⟩
    · rw [heq] at hev; simp at hev
    · rw [heq]
      refine ⟨execFailStep_cf s o.errorMsg, ?_⟩
      rw [execFailStep_reason]
      split
      · next hcap => simp [hcap]
      · next hcap => simp [hs, hcap]
    · rw [heq] at hev; simp at hev
    · rw [heq] at hev; simp at hev
    · rw [heq] at hev; simp at hev
  · intro cfg o s hacc
    rcases stepE_cases cfg o s with ⟨-, heq⟩ | ⟨-, -, heq⟩ |
      ⟨-, -, ct, -, -, -, heq⟩ | ⟨-, -, -, c, l, r, heq⟩ |
      ⟨-, -, -, rt, -, -, heq⟩
    · rw [heq] at hacc; simp [IterEvent.isAccepted] at hacc
    · rw [heq] at hacc; simp [IterEvent.isAccepted] at hacc
    · rw [heq]; simp [acceptStep_cf]
    · rw [heq] at hacc; simp [IterEvent.isAccepted] at hacc
    · rw [heq]; simp [acceptStep_cf]
  · intro cfg endR outcomes s hs hcf hallow
    have hpol := runLoop_policy cfg endR noTruncEvents
      (fun st => st.consecutive_failures < MAX_CONSECUTIVE_FAILURES)
      (fun st => st.stopped_reason = some StopReason.consecutive_failures →
        st.consecutive_failures = MAX_CONSECUTIVE_FAILURES)
      ?_ outcomes s hs (by simp [hcf, MAX_CONSECUTIVE_FAILURES]) hallow
    · exact ⟨fun hr => (hpol.2 (by simp [hr])) hr, fun hr => hpol.1 hr⟩
    · intro o t ht hlt hal hP
      rcases stepE_cases cfg o t with ⟨-, heq⟩ | ⟨-, -, heq⟩ |
        ⟨-, -, ct, -, -, -, heq⟩ | ⟨-, -, -, c, l, r, heq⟩ |
        ⟨-, -, -, rt, -, -, heq⟩
      · rw [heq]
        constructor
        · intro hnone; simp at hnone
        · intro _ hcs; simp at hcs
      · rw [heq]
        rw [execFailStep_reason]
        split
        · next hcap =>
            constructor
            · intro hnone; simp at hnone
            · intro _ _
              rw [execFailStep_cf]
              simp only [MAX_CONSECUTIVE_FAILURES] at hP hcap ⊢
              omega
        · next hcap =>
            constructor
            · intro _
              rw [execFailStep_cf]
              simp only [MAX_CONSECUTIVE_FAILURES] at hcap ⊢
              omega
            · intro hne; simp [ht] at hne
      · rw [heq]
        dsimp only
        rw [acceptStep_reason]
        split
        · constructor
          · intro hnone; simp at hnone
          · intro _ hcs; simp at hcs
        · constructor
          · intro _
            rw [acceptStep_cf]
            decide
          · intro hne
            simp [ht] at hne
      · rw [heq] at hal
        simp [noTruncEvents] at hal
      · rw [heq]
        dsimp only
        rw [acceptStep_reason]
        split
        · constructor
          · intro hnone; simp at hnone
          · intro _ hcs; simp at hcs
        · constructor
          · intro _
            rw [acceptStep_cf]
            decide
          · intro hne
            simp [ht] at hne

/-- Counterexample to claim C5 as stated: on resume, seeded size-history
entries are not guaranteed to be character counts of accepted
(non-truncated) rounds.  `_seed_output_sizes` (lines 1408-1424) checks
only that a round file exists with positive size and never re-runs the
truncation detector, so a leftover truncated `round_1.md` — here the
50-character `badContent`, which the detector itself classifies
truncated — seeds the history with its size. -/
theorem size_history_seeding_unchecked :
    seedDisk 1 = some badContent ∧
    check_output_truncation (some badContent) [] = true ∧
    _seed_output_sizes (fun n => (seedDisk n).map List.length) 1 =
      [badContent.length] :=
  ⟨rfl, by decide, by decide⟩

/-- Claim C5 (amended: seeded entries are only guaranteed to be positive
sizes of existing prior round files, not re-checked for truncation or
acceptance): the rolling size history only ever grows during the loop by
the character count of an accepted round's artifact — the accepted
first-pass content or the accepted recovered content — and is untouched
by shutdowns, execution failures and truncation failures; on resume,
every seeded entry is the positive size of an existing prior round file
in the seeded window. -/
theorem size_history_provenance :
    (∀ (cfg : Config) (o : RoundOutcome) (s : LoopState) (c : ℕ),
       (stepE cfg o s).2 = IterEvent.acceptedFirstPass c →
       (∃ content, o.fileContent = some content ∧ c = content.length) ∧
       (stepE cfg o s).1.output_sizes = s.output_sizes ++ [c])
  ∧ (∀ (cfg : Config) (o : RoundOutcome) (s : LoopState) (c : ℕ),
       (stepE cfg o s).2 = IterEvent.acceptedRecovered c →
       (∃ rtext, o.recovered = some rtext ∧ c = rtext.length) ∧
       (stepE cfg o s).1.output_sizes = s.output_sizes ++ [c])
  ∧ (∀ (cfg : Config) (o : RoundOutcome) (s : LoopState),
       ((stepE cfg o s).2 = IterEvent.shutdownObserved ∨
        (stepE cfg o s).2 = IterEvent.execFailed ∨
        (stepE cfg o s).2 = IterEvent.truncationFailed) →
       (stepE cfg o s).1.output_sizes = s.output_sizes)
  ∧ (∀ (fileSizes : ℕ → Option ℕ) (up_to x : ℕ),
       x ∈ _seed_output_sizes fileSizes up_to →
       ∃ n, max 1 (up_to - 4) ≤ n ∧ n ≤ up_to ∧
         fileSizes n = some x ∧ 0 < x) := by
  refine ⟨?_, ?_, ?_, ?_⟩
  · intro cfg o s c hev
    rcases stepE_cases cfg o s with ⟨-, heq⟩ | ⟨-, -, heq⟩ |
      ⟨-, -, ct, hfc, -, -, heq⟩ | ⟨-, -, -, ch, l, r, heq⟩ |
      ⟨-, -, -, rt, -, -, heq⟩
    · rw [heq] at hev; simp at hev
    · rw [heq] at hev; simp at hev
    · rw [heq] at hev ⊢
      simp only [] at hev
      have hc : ct.length = c := by simpa using hev
      subst hc
      refine ⟨⟨ct, hfc, rfl⟩, ?_⟩
      dsimp only
      rw [acceptStep_sizes]
    · rw [heq] at hev; simp at hev
    · rw [heq] at hev; simp at hev
  · intro cfg o s c hev
    rcases stepE_cases cfg o s with ⟨-, heq⟩ | ⟨-, -, heq⟩ |
      ⟨-, -, ct, -, -, -, heq⟩ | ⟨-, -, -, ch, l, r, heq⟩ |
      ⟨-, -, -, rt, hrec, -, heq⟩
    · rw [heq] at hev; simp at hev
    · rw [heq] at hev; simp at hev
    · rw [heq] at hev; simp at hev
    · rw [heq] at hev; simp at hev
    · rw [heq] at hev ⊢
      have hc : rt.length = c := by simpa using hev
      subst hc
      refine ⟨⟨rt, hrec, rfl⟩, ?_⟩
      dsimp only
      rw [acceptStep_sizes]
  · intro cfg o s hev
    rcases stepE_cases cfg o s with ⟨-, heq⟩ | ⟨-, -, heq⟩ |
      ⟨-, -, ct, -, -, -, heq⟩ | ⟨-, -, -, ch, l, r, heq⟩ |
      ⟨-, -, -, rt, -, -, heq⟩
    · rw [heq]
    · rw [heq]; exact execFailStep_sizes s o.errorMsg
    · rw [heq] at hev; simp at hev
    · rw [heq]
      dsimp only
      rw [truncFailStep_sizes]
    · rw [heq] at hev; simp at hev
  · intro fileSizes u x hx
    simp only [_seed_output_sizes, List.mem_filterMap] at hx
    obtain ⟨n, hn, hfn⟩ := hx
    have hn' := List.mem_range'_1.mp hn
    cases hfs : fileSizes n with
    | none => rw [hfs] at hfn; cases hfn
    | some size =>
        rw [hfs] at hfn
        dsimp only at hfn
        by_cases hpos : 0 < size
        · rw [if_pos hpos] at hfn
          have hsx := Option.some.inj hfn
          subst hsx
          refine ⟨n, hn'.1, ?_, hfs, hpos⟩
          have hle : max 1 (u - 4) ≤ u + 1 := by
            apply max_le <;> omega
          have hn2 := hn'.2
          omega
        · rw [if_neg hpos] at hfn
          cases hfn

/-- Witness for C5: the accepted first pass on round 1 appends 201, a
truncation failure leaves the history unchanged, and a seeded entry
comes from an existing round file. -/
theorem size_history_provenance_instance :
    ((∃ content, oGood.fileContent = some content ∧
        201 = content.length) ∧
      (stepE cfg0 oGood s0).1.output_sizes = s0.output_sizes ++ [201]) ∧
    (stepE cfg0 oBad s0).1.output_sizes = s0.output_sizes ∧
    ∃ n, max 1 (3 - 4) ≤ n ∧ n ≤ 3 ∧
      (fun m => if m = 3 then some 500 else none) n = some 500 ∧
      (0 : ℕ) < 500 :=
  ⟨size_history_provenance.1 cfg0 oGood s0 201 (by decide),
   size_history_provenance.2.2.1 cfg0 oBad s0 (Or.inr (Or.inr (by decide))),
   size_history_provenance.2.2.2 (fun m => if m = 3 then some 500 else none)
     3 500 (by decide)⟩

/-- Claim C2: a truncation failure increments this round's truncation
counter without advancing the round number and stops with
`truncated_output` exactly when the counter reaches the cap of 3 (and
never with `consecutive_failures`); along a run whose failures are all
truncation failures and recovery never produces acceptable text, a
`truncated_output` stop leaves the stopping round's counter at exactly
3, while an active loop keeps the current round's counter at most 2. -/
theorem truncation_retry_cap_policy :
    (∀ (cfg : Config) (o : RoundOutcome) (s : LoopState),
       s.stopped_reason = none →
       s.truncation_attempts s.round_num = s.consecutive_failures →
       s.consecutive_failures ≤ 2 →
       (stepE cfg o s).2 = IterEvent.truncationFailed →
       (stepE cfg o s).1.truncation_attempts s.round_num =
         s.truncation_attempts s.round_num + 1 ∧
       (stepE cfg o s).1.round_num = s.round_num ∧
       ((stepE cfg o s).1.stopped_reason =
           some StopReason.truncated_output ↔
         s.truncation_attempts s.round_num + 1 = MAX_TRUNCATION_RETRIES) ∧
       (stepE cfg o s).1.stopped_reason ≠
         some StopReason.consecutive_failures)
  ∧ (∀ (cfg : Config) (endR : ℕ) (outcomes : List RoundOutcome)
       (s : LoopState),
       s.stopped_reason = none →
       s.consecutive_failures = 0 →
       (∀ r, s.truncation_attempts r = 0) →
       allowedRun cfg endR truncOnlyEvents outcomes s = true →
       ((runLoop cfg endR outcomes s).stopped_reason =
           some StopReason.truncated_output →
         (runLoop cfg endR outcomes s).truncation_attempts
           (runLoop cfg endR outcomes s).round_num =
           MAX_TRUNCATION_RETRIES) ∧
       ((runLoop cfg endR outcomes s).stopped_reason = none →
         (runLoop cfg endR outcomes s).truncation_attempts
           (runLoop cfg endR outcomes s).round_num ≤ 2)) := by
  constructor
  · intro cfg o s hs hta hle hev
    rcases stepE_cases cfg o s with ⟨-, heq⟩ | ⟨-, -, heq⟩ |
      ⟨-, -, ct, -, -, -, heq⟩ | ⟨-, -, -, ch, l, r, heq⟩ |
      ⟨-, -, -, rt, -, -, heq⟩
    · rw [heq] at hev; simp at hev
    · rw [heq] at hev; simp at hev
    · rw [heq] at hev; simp at hev
    · rw [heq]
      dsimp only
      rw [truncFailStep_ta, truncFailStep_round_num, truncFailStep_reason]
      dsimp only
      simp only [MAX_TRUNCATION_RETRIES, MAX_CONSECUTIVE_FAILURES] at hle ⊢
      refine ⟨Function.update_same _ _ _, by trivial, ?_, ?_⟩
      · by_cases hcap : s.truncation_attempts s.round_num + 1 < 3
        · rw [if_pos hcap]
          rw [if_neg (by omega)]
          constructor
          · intro hq; rw [hs] at hq; cases hq
          · intro hq
            exact absurd hq (by omega)
        · rw [if_neg hcap]
          constructor
          · intro _
            omega
          · intro _; rfl
      · by_cases hcap : s.truncation_attempts s.round_num + 1 < 3
        · rw [if_pos hcap]
          rw [if_neg (by omega)]
          rw [hs]
          simp
        · rw [if_neg hcap]
          simp
    · rw [heq] at hev; simp at hev
  · intro cfg endR outcomes s hs hcf hta hallow
    have hpol := runLoop_policy cfg endR truncOnlyEvents
      (fun st => st.truncation_attempts st.round_num =
          st.consecutive_failures ∧
        st.consecutive_failures ≤ 2 ∧
        ∀ r, st.round_num < r → st.truncation_attempts r = 0)
      (fun st => st.stopped_reason = some StopReason.truncated_output →
        st.truncation_attempts st.round_num = MAX_TRUNCATION_RETRIES)
      ?_ outcomes s hs
      (by
        refine ⟨?_, ?_, ?_⟩
        · rw [hta s.round_num, hcf]
        · rw [hcf]; decide
        · intro r _; exact hta r)
      hallow
    · refine ⟨fun hr => (hpol.2 (by simp [hr])) hr, fun hr => ?_⟩
      have hP := hpol.1 hr
      rw [hP.1]
      exact hP.2.1
    · intro o t ht hlt hal hP
      obtain ⟨hPta, hPle, hPzero⟩ := hP
      rcases stepE_cases cfg o t with ⟨-, heq⟩ | ⟨-, -, heq⟩ |
        ⟨-, -, ct, -, -, -, heq⟩ | ⟨-, -, -, ch, l, r, heq⟩ |
        ⟨-, -, -, rt, -, -, heq⟩
      · rw [heq]
        constructor
        · intro hnone; simp at hnone
        · intro _ hq; simp at hq
      · rw [heq] at hal
        simp [truncOnlyEvents] at hal
      · rw [heq]
        dsimp only
        rw [acceptStep_reason]
        dsimp only
        split
        · constructor
          · intro hnone; simp at hnone
          · intro _ hq; simp at hq
        · constructor
          · intro _
            rw [acceptStep_cf, acceptStep_round_num, acceptStep_ta]
            dsimp only
            split
            · next hflag => simp_all
            · refine ⟨?_, by decide, ?_⟩
              · exact hPzero (t.round_num + 1) (Nat.lt_succ_self _)
              · intro r hr
                exact hPzero r (by omega)
          · intro hne
            rw [ht] at hne
            exact absurd rfl hne
      · rw [heq]
        dsimp only
        rw [truncFailStep_reason, truncFailStep_cf, truncFailStep_ta,
          truncFailStep_round_num]
        dsimp only
        simp only [MAX_TRUNCATION_RETRIES, MAX_CONSECUTIVE_FAILURES]
          at hPle ⊢
        by_cases hcap : t.truncation_attempts t.round_num + 1 < 3
        · rw [if_pos hcap]
          rw [if_neg (by omega)]
          constructor
          · intro _
            refine ⟨?_, ?_, ?_⟩
            · rw [Function.update_same, hPta]
            · omega
            · intro r hr
              rw [Function.update_noteq (by omega)]
              exact hPzero r hr
          · intro hne
            rw [ht] at hne
            exact absurd rfl hne
        · rw [if_neg hcap]
          constructor
          · intro hnone; simp at hnone
          · intro _ _
            rw [Function.update_same]
            omega
      · rw [heq] at hal
        simp [truncOnlyEvents] at hal

/-- Witness for C2: the first truncation failure on round 1, and a
three-truncation run ending in a `truncated_output` stop. -/
theorem truncation_retry_cap_policy_instance :
    ((stepE cfg0 oBad s0).1.truncation_attempts s0.round_num =
        s0.truncation_attempts s0.round_num + 1 ∧
      (stepE cfg0 oBad s0).1.round_num = s0.round_num ∧
      ((stepE cfg0 oBad s0).1.stopped_reason =
          some StopReason.truncated_output ↔
        s0.truncation_attempts s0.round_num + 1 = MAX_TRUNCATION_RETRIES) ∧
      (stepE cfg0 oBad s0).1.stopped_reason ≠
        some StopReason.consecutive_failures) ∧
    (((runLoop cfg0 51 [oBad, oBad, oBad] s0).stopped_reason =
        some StopReason.truncated_output →
      (runLoop cfg0 51 [oBad, oBad, oBad] s0).truncation_attempts
        (runLoop cfg0 51 [oBad, oBad, oBad] s0).round_num =
        MAX_TRUNCATION_RETRIES) ∧
     ((runLoop cfg0 51 [oBad, oBad, oBad] s0).stopped_reason = none →
      (runLoop cfg0 51 [oBad, oBad, oBad] s0).truncation_attempts
        (runLoop cfg0 51 [oBad, oBad, oBad] s0).round_num ≤ 2)) :=
  ⟨truncation_retry_cap_policy.1 cfg0 oBad s0 rfl rfl (by decide)
      (by decide),
   truncation_retry_cap_policy.2 cfg0 51 [oBad, oBad, oBad] s0 rfl rfl
     (fun r => rfl) (by decide)⟩

/-- Witness for C3: a first failure at counter 0, an accepted round, and
a three-failure run ending in a `consecutive_failures` stop. -/
theorem consecutive_failure_cap_policy_instance :
    ((stepE cfg0 oFail s0).1.consecutive_failures =
        s0.consecutive_failures + 1 ∧
      ((stepE cfg0 oFail s0).1.stopped_reason =
          some StopReason.consecutive_failures ↔
        MAX_CONSECUTIVE_FAILURES ≤ s0.consecutive_failures + 1)) ∧
    (stepE cfg0 oGood s0).1.consecutive_failures = 0 ∧
    (((runLoop cfg0 51 [oFail, oFail, oFail] s0).stopped_reason =
        some StopReason.consecutive_failures →
      (runLoop cfg0 51 [oFail, oFail, oFail] s0).consecutive_failures =
        MAX_CONSECUTIVE_FAILURES) ∧
     ((runLoop cfg0 51 [oFail, oFail, oFail] s0).stopped_reason = none →
      (runLoop cfg0 51 [oFail, oFail, oFail] s0).consecutive_failures <
        MAX_CONSECUTIVE_FAILURES)) :=
  ⟨consecutive_failure_cap_policy.1 cfg0 oFail s0 rfl (by decide),
   consecutive_failure_cap_policy.2.1 cfg0 oGood s0 (by decide),
   consecutive_failure_cap_policy.2.2 cfg0 51 [oFail, oFail, oFail] s0
     rfl rfl (by decide)⟩

end AprAuto
